import Mathlib

/-!
Shallow embedding of src/projects/fe-behavior/src/lib/state/finite-state-machine.ts
(the Configurable Transition Adapter `FiniteStateMachine`).

Modelling conventions:
* JavaScript objects used as string-keyed dictionaries become ordered
  association lists (`JsObj`): property assignment overwrites in place and
  appends new keys at the end, matching for-in insertion order.
* Callbacks and error handlers are opaque values compared by reference
  identity; we model a function reference as a `Nat` identifier.
* Methods that may `throw` return `Except String`, carrying the exact
  message string built by the source (TypeError messages raised by the
  JavaScript runtime itself are modelled by a fixed descriptive string).
* The external engine (the `statemachine` dependency) is an external
  collaborator: its runtime behaviour (`is`, `cannot`, method lookup and
  the state reached by firing a transition) is an abstract
  `EngineBehavior` supplied when the engine is instantiated at `start`.
* JavaScript truthiness is modelled where the source relies on it:
  `null` and the empty string are falsy (`strTruthy`), objects and
  function references are truthy (`Option.isSome`).
-/

namespace PolpFSM

/-- A JavaScript object used as a dictionary: ordered association list. -/
abbrev JsObj (α : Type) := List (String × α)

/-- Property read `o[k]`: first binding wins (keys are unique in practice). -/
def JsObj.get {α : Type} : JsObj α → String → Option α
  | [], _ => none
  | p :: rest, k => if p.1 == k then some p.2 else JsObj.get rest k

/-- Property write `o[k] = v`: overwrite in place, append if absent. -/
def JsObj.set {α : Type} : JsObj α → String → α → JsObj α
  | [], k, v => [(k, v)]
  | p :: rest, k, v => if p.1 == k then (k, v) :: rest else p :: JsObj.set rest k v

/-- Truthiness of a nullable string (`null` and `''` are falsy). -/
def strTruthy : Option String → Bool
  | none => false
  | some s => s != ""

/-- `captialize` (sic) from the source: charAt(0).toUpperCase() + slice(1). -/
def captialize (value : String) : String :=
  match value.data with
  | [] => ""
  | c :: cs => String.mk (c.toUpper :: cs)

/-- `replaceStr(transitionKeyFormat, ...)`: the format is from, "2", the target. -/
def transitionKey (f t : String) : String := f ++ "2" ++ t

/-- `IStateSpecification`. -/
structure IStateSpecification where
  onEnterCallback : Option Nat
  onLeaveCallback : Option Nat
deriving DecidableEq

/-- `ITransitionSpecification`. -/
structure ITransitionSpecification where
  from_ : String
  to_ : String
  onBeforeCallback : Option Nat
  onAfterCallback : Option Nat
deriving DecidableEq

/-- One entry of the transition list handed to the engine constructor. -/
structure TransitionTriple where
  name : String
  from_ : String
  to_ : String
deriving DecidableEq

/-- A value stored in the named-method map handed to the engine:
a user callback, an `undefined` assignment, or one of the two fan-out
closures built by `buildHandlerInClosure`. -/
inductive MethodVal where
  | cb (id : Nat)
  | jsUndefined
  | fanout (key : String)
deriving DecidableEq

/-- The error handler registered with the engine: the user-supplied one
when present, otherwise `defaultErrorHandler`. -/
inductive ErrHandler where
  | default
  | user (id : Nat)
deriving DecidableEq

/-- The configuration object passed to `new StateMachine(...)` at `start`. -/
structure EngineInit where
  init : String
  transitions : List TransitionTriple
  methods : JsObj MethodVal
  onInvalidTransition : ErrHandler

/-- Abstract runtime behaviour of the external engine (`IUnderlyImpl`):
each observation takes the engine's current state as first argument. -/
structure EngineBehavior where
  is : String → String → Bool
  cannot : String → String → Bool
  hasMethod : String → Bool
  fireTo : String → String → String

/-- A running engine instance: the data it was constructed from, its
abstract behaviour, and its current state. -/
structure Engine where
  config : EngineInit
  beh : EngineBehavior
  state : String

/-- The adapter's private fields. -/
structure FSM where
  impl : Option Engine
  initState : Option String
  errorHandler : Option Nat
  stateConfiguration : JsObj IStateSpecification
  transitionConfiguration : JsObj ITransitionSpecification
  handlers : JsObj (List Nat)

/-- The constructor. -/
def FSM.new : FSM :=
  { impl := none, initState := none, errorHandler := none,
    stateConfiguration := [], transitionConfiguration := [], handlers := [] }

/-- `ensureConfigureStage`. -/
def FSM.ensureConfigureStage (c : FSM) : Except String Unit :=
  if c.impl.isSome then .error "State machine has started." else .ok ()

/-- `ensureRunningStage`. -/
def FSM.ensureRunningStage (c : FSM) : Except String Unit :=
  if c.impl.isSome then .ok () else .error "State machine has not yet started."

/-- `addState`. -/
def FSM.addState (c : FSM) (name : String)
    (onEnterCallback onLeaveCallback : Option Nat) : Except String FSM :=
  match c.ensureConfigureStage with
  | .error e => .error e
  | .ok _ =>
    if (JsObj.get c.stateConfiguration name).isSome then
      .error ("Redefined state: " ++ name)
    else
      .ok { c with stateConfiguration :=
              (JsObj.set c.stateConfiguration name
                { onEnterCallback := onEnterCallback,
                  onLeaveCallback := onLeaveCallback }) }

/-- `setInitState`. -/
def FSM.setInitState (c : FSM) (name : String) : Except String FSM :=
  match c.ensureConfigureStage with
  | .error e => .error e
  | .ok _ =>
    if strTruthy c.initState then
      .error ("Redefined init state: " ++ c.initState.getD "")
    else
      .ok { c with initState := some name }

/-- `addTransition`. -/
def FSM.addTransition (c : FSM) (from_ to_ : String)
    (onAfterCallback onBeforeCallback : Option Nat) : Except String FSM :=
  match c.ensureConfigureStage with
  | .error e => .error e
  | .ok _ =>
    if (JsObj.get c.stateConfiguration from_).isSome = false then
      .error ("Undefined source state: " ++ from_)
    else if (JsObj.get c.stateConfiguration to_).isSome = false then
      .error ("Undefined target state: " ++ to_)
    else
      let key := transitionKey from_ to_
      if (JsObj.get c.transitionConfiguration key).isSome then
        .error ("Redefined transition: " ++ from_ ++ " -> " ++ to_)
      else
        .ok { c with transitionConfiguration :=
                (JsObj.set c.transitionConfiguration key
                  { from_ := from_, to_ := to_,
                    onAfterCallback := onAfterCallback,
                    onBeforeCallback := onBeforeCallback }) }

/-- An optional callback as stored by a method-map assignment
(assigning an absent callback stores `undefined`). -/
def methodValOf : Option Nat → MethodVal
  | some n => .cb n
  | none => .jsUndefined

/-- The first for-in loop of `start`: builds the transition list and the
per-transition named methods. NOTE: the source (line 222) stores
`elem1.onAfterCallback` under the onBefore key; the embedding mirrors it. -/
def startLoop1 (conf : JsObj ITransitionSpecification) :
    List TransitionTriple × JsObj MethodVal :=
  conf.foldl
    (fun acc kv =>
      let ts := acc.1 ++ [{ name := kv.1, from_ := kv.2.from_, to_ := kv.2.to_ }]
      let ms :=
        if kv.2.onAfterCallback.isSome then
          JsObj.set acc.2 ("onAfter" ++ captialize kv.1) (methodValOf kv.2.onAfterCallback)
        else acc.2
      let ms :=
        if kv.2.onBeforeCallback.isSome then
          JsObj.set ms ("onBefore" ++ captialize kv.1) (methodValOf kv.2.onAfterCallback)
        else ms
      (ts, ms))
    ([], [])

/-- The second for-in loop of `start`: per-state enter/leave methods. -/
def startLoop2 (conf : JsObj IStateSpecification) (ms0 : JsObj MethodVal) :
    JsObj MethodVal :=
  conf.foldl
    (fun ms kv =>
      let ms :=
        if kv.2.onEnterCallback.isSome then
          JsObj.set ms ("onEnter" ++ captialize kv.1) (methodValOf kv.2.onEnterCallback)
        else ms
      if kv.2.onLeaveCallback.isSome then
        JsObj.set ms ("onLeave" ++ captialize kv.1) (methodValOf kv.2.onLeaveCallback)
      else ms)
    ms0

/-- The full named-method map built by `start`, fan-out closures included. -/
def startMethods (c : FSM) : JsObj MethodVal :=
  let ms := startLoop2 c.stateConfiguration (startLoop1 c.transitionConfiguration).2
  JsObj.set (JsObj.set ms "onEnterState" (.fanout "onEnterState"))
    "onLeaveState" (.fanout "onLeaveState")

/-- `this._errorHandler || defaultErrorHandler`. -/
def errHandlerOf : Option Nat → ErrHandler
  | some n => .user n
  | none => .default

/-- `start`, parametrised by the behaviour the instantiated engine
will exhibit (the engine is an external collaborator). -/
def FSM.start (beh : EngineBehavior) (c : FSM) : Except String FSM :=
  match c.ensureConfigureStage with
  | .error e => .error e
  | .ok _ =>
    if strTruthy c.initState = false then
      .error "Init state has not been defined."
    else
      let init := c.initState.getD ""
      let einit : EngineInit :=
        { init := init,
          transitions := (startLoop1 c.transitionConfiguration).1,
          methods := startMethods c,
          onInvalidTransition := errHandlerOf c.errorHandler }
      .ok { c with
              handlers := (JsObj.set (JsObj.set c.handlers "onEnterState" [])
                            "onLeaveState" []),
              impl := some { config := einit, beh := beh, state := init } }

/-- Message of the TypeError the runtime raises when `.push` is read from
an `undefined` handler list. -/
def typeErrorPush : String := "TypeError: Cannot read property push of undefined"

/-- `onEnterState`. Before `start` the list `_handlers.onEnterState` does
not exist: underscore's `indexOf` returns -1 on `undefined`, and the
subsequent `.push` raises a TypeError. -/
def FSM.onEnterState (c : FSM) (handler : Nat) : Except String FSM :=
  match JsObj.get c.handlers "onEnterState" with
  | none => .error typeErrorPush
  | some ourHandlers =>
    if ourHandlers.contains handler then
      .error "Re-registering a hander!"
    else
      .ok { c with handlers :=
              (JsObj.set c.handlers "onEnterState" (ourHandlers ++ [handler])) }

/-- `onExitState` (the registration list is keyed `onLeaveState`). -/
def FSM.onExitState (c : FSM) (handler : Nat) : Except String FSM :=
  match JsObj.get c.handlers "onLeaveState" with
  | none => .error typeErrorPush
  | some ourHandlers =>
    if ourHandlers.contains handler then
      .error "Registering a hander!"
    else
      .ok { c with handlers :=
              (JsObj.set c.handlers "onLeaveState" (ourHandlers ++ [handler])) }

/-- underscore's `without(list, x)`: tolerates `undefined` (empty result),
otherwise filters out `x` by reference identity. -/
def without (o : Option (List Nat)) (x : Nat) : List Nat :=
  (o.getD []).filter (fun y => y != x)

/-- `offEnterState`. NOTE: the source (line 286) reads the list under key
`onEnterState` but assigns the filtered list under key `onenterstate`
(lower case); the embedding mirrors it. -/
def FSM.offEnterState (c : FSM) (handler : Nat) : Except String FSM :=
  let ourHandlers := JsObj.get c.handlers "onEnterState"
  .ok { c with handlers :=
          (JsObj.set c.handlers "onenterstate" (without ourHandlers handler)) }

/-- `offExitState`. NOTE: the source (line 295) reads key `onLeaveState`
but assigns under key `onexitstate`; the embedding mirrors it. -/
def FSM.offExitState (c : FSM) (handler : Nat) : Except String FSM :=
  let ourHandlers := JsObj.get c.handlers "onLeaveState"
  .ok { c with handlers :=
          (JsObj.set c.handlers "onexitstate" (without ourHandlers handler)) }

/-- `addErrorHandler`. -/
def FSM.addErrorHandler (c : FSM) (fn : Nat) : Except String FSM :=
  match c.ensureConfigureStage with
  | .error e => .error e
  | .ok _ => .ok { c with errorHandler := some fn }

/-- `current`. -/
def FSM.current (c : FSM) : Except String String :=
  match c.impl with
  | none => .error "State machine has not yet started."
  | some e => .ok e.state

/-- What `return this` / `return self` evaluate to on `go`'s paths:
the adapter instance, or the global `self` object (the source's
`return self` at line 325 has no local `self` binding). -/
inductive RetVal where
  | thisRef
  | globalSelf
deriving DecidableEq

/-- Outcome of a `go` call: its returned value or raised error, the engine
transition method invoked (if any), and the post-state of the adapter. -/
structure GoOutcome where
  result : Except String RetVal
  fired : Option String
  post : FSM

/-- `go`. -/
def FSM.go (c : FSM) (to_ : String) : GoOutcome :=
  match c.impl with
  | none =>
    { result := .error "State machine has not yet started.", fired := none, post := c }
  | some e =>
    if (JsObj.get c.stateConfiguration to_).isSome = false then
      { result := .error ("Go to undefined state: " ++ to_), fired := none, post := c }
    else if e.beh.is e.state to_ then
      { result := .ok .thisRef, fired := none, post := c }
    else
      let transitionName := transitionKey e.state to_
      if e.beh.cannot e.state transitionName then
        { result := .error ("Transition is not allowed: " ++ e.state ++ " -> " ++ to_),
          fired := none, post := c }
      else if e.beh.hasMethod transitionName then
        { result := .ok .globalSelf, fired := some transitionName,
          post := { c with impl :=
                      (some { e with state := e.beh.fireTo e.state transitionName }) } }
      else
        { result := .error "TypeError: func is not a function", fired := none, post := c }

/-- The loop body of the closure built by `buildHandlerInClosure`:
invokes each handler in order, passing the same arguments object;
returns the invocation trace. -/
def fanoutLoop (ourHandlers : List Nat) (args : List Nat) : List (Nat × List Nat) :=
  match ourHandlers with
  | [] => []
  | f :: rest => (f, args) :: fanoutLoop rest args

/-- `buildHandlerInClosure`, applied to its arguments: reads the handler
list under `key` at call time; absent list means no invocation. -/
def buildHandlerInClosure (context : JsObj (List Nat)) (key : String)
    (args : List Nat) : List (Nat × List Nat) :=
  match JsObj.get context key with
  | none => []
  | some ourHandlers => fanoutLoop ourHandlers args

/-- Whether an `Except` result is a raised error. -/
def isErr {α : Type} : Except String α → Bool
  | .error _ => true
  | .ok _ => false

/-- A concrete engine behaviour for instantiating theorems: the engine is
in the state it reports (`is` is equality), forbids nothing, has every
method, and lands in a state named after the fired transition. -/
def behW : EngineBehavior :=
  { is := fun cur s => cur == s, cannot := fun _ _ => false,
    hasMethod := fun _ => true, fireTo := fun _ t => t }

/-- A concrete engine configuration for instantiating theorems. -/
def einitW : EngineInit :=
  { init := "n1", transitions := [], methods := [], onInvalidTransition := .default }

/-- A concrete running engine, currently in state n1. -/
def eW : Engine := { config := einitW, beh := behW, state := "n1" }

/-- A concrete started adapter with declared states n1 and n2. -/
def cW : FSM :=
  { impl := some eW, initState := some "n1", errorHandler := none,
    stateConfiguration :=
      [("n1", { onEnterCallback := none, onLeaveCallback := none }),
       ("n2", { onEnterCallback := none, onLeaveCallback := none })],
    transitionConfiguration := [],
    handlers := [("onEnterState", []), ("onLeaveState", [])] }

/-- Concrete run: declare n1, init n1, start, register handler 7,
un-register it with offEnterState, register it again. -/
def offOnRun : Except String FSM :=
  (FSM.addState FSM.new "n1" none none).bind (fun c =>
  (FSM.setInitState c "n1").bind (fun c =>
  (FSM.start behW c).bind (fun c =>
  (FSM.onEnterState c 7).bind (fun c =>
  (FSM.offEnterState c 7).bind (fun c =>
  FSM.onEnterState c 7)))))

/-- Concrete run: states a and b, transition a2b with onBefore callback 1
and onAfter callback 2, init a, started. -/
def beforeAfterRun : Except String FSM :=
  (FSM.addState FSM.new "a" none none).bind (fun c =>
  (FSM.addState c "b" none none).bind (fun c =>
  (FSM.addTransition c "a" "b" (some 2) (some 1)).bind (fun c =>
  (FSM.setInitState c "a").bind (fun c =>
  FSM.start behW c))))

/-- The named-method map of the engine instantiated by a successful run. -/
def implMethods (r : Except String FSM) : JsObj MethodVal :=
  match r with
  | .ok c =>
    match c.impl with
    | some e => e.config.methods
    | none => []
  | .error _ => []

/-- Concrete run: states n1 and n2, transition n1 to n2, init n1, started. -/
def twoStateRun : Except String FSM :=
  (FSM.addState FSM.new "n1" none none).bind (fun c =>
  (FSM.addState c "n2" none none).bind (fun c =>
  (FSM.addTransition c "n1" "n2" none none).bind (fun c =>
  (FSM.setInitState c "n1").bind (fun c =>
  FSM.start behW c))))

/-- The outcome of calling go to n2 on the started two-state adapter. -/
def twoStateGo : GoOutcome :=
  match twoStateRun with
  | .ok c => FSM.go c "n2"
  | .error e => { result := .error e, fired := none, post := FSM.new }

/-- The adapter produced by setInitState of the empty string on a fresh
instance (JavaScript truthiness treats the empty string as unset). -/
def fsmEmptyInit : FSM := { FSM.new with initState := some "" }

/-- The adapter produced by addState of n1 on a fresh instance. -/
def cA : FSM :=
  { FSM.new with stateConfiguration :=
      [("n1", { onEnterCallback := none, onLeaveCallback := none })] }

/-- The adapter states reachable from the constructor through the public
methods (the quantifier used for every adapter in lifecycle claims). -/
inductive Reachable : FSM → Prop where
  | new : Reachable FSM.new
  | addState {c c' : FSM} {n : String} {e l : Option Nat} :
      Reachable c → FSM.addState c n e l = .ok c' → Reachable c'
  | setInitState {c c' : FSM} {n : String} :
      Reachable c → FSM.setInitState c n = .ok c' → Reachable c'
  | addTransition {c c' : FSM} {f t : String} {a b : Option Nat} :
      Reachable c → FSM.addTransition c f t a b = .ok c' → Reachable c'
  | addErrorHandler {c c' : FSM} {f : Nat} :
      Reachable c → FSM.addErrorHandler c f = .ok c' → Reachable c'
  | start {c c' : FSM} {beh : EngineBehavior} :
      Reachable c → FSM.start beh c = .ok c' → Reachable c'
  | onEnterState {c c' : FSM} {h : Nat} :
      Reachable c → FSM.onEnterState c h = .ok c' → Reachable c'
  | onExitState {c c' : FSM} {h : Nat} :
      Reachable c → FSM.onExitState c h = .ok c' → Reachable c'
  | offEnterState {c c' : FSM} {h : Nat} :
      Reachable c → FSM.offEnterState c h = .ok c' → Reachable c'
  | offExitState {c c' : FSM} {h : Nat} :
      Reachable c → FSM.offExitState c h = .ok c' → Reachable c'
  | go {c : FSM} {t : String} :
      Reachable c → Reachable (FSM.go c t).post

end PolpFSM

namespace PolpFSM

/-! ## Helper lemmas about the dictionary model -/

theorem JsObj.get_set_self {α : Type} (o : JsObj α) (k : String) (v : α) :
    JsObj.get (JsObj.set o k v) k = some v := by
  induction o with
  | nil => simp [JsObj.get, JsObj.set]
  | cons p rest ih =>
    by_cases hk : p.1 = k
    · simp [JsObj.get, JsObj.set, hk]
    · simp only [JsObj.set, JsObj.get]
      rw [if_neg (by simpa using hk), JsObj.get, if_neg (by simpa using hk)]
      exact ih

theorem JsObj.get_set_ne {α : Type} (o : JsObj α) (k k' : String) (v : α)
    (hne : k' ≠ k) : JsObj.get (JsObj.set o k v) k' = JsObj.get o k' := by
  induction o with
  | nil => simp [JsObj.get, JsObj.set, Ne.symm hne]
  | cons p rest ih =>
    by_cases hk : p.1 = k
    · simp [JsObj.set, JsObj.get, hk, Ne.symm hne]
    · simp [JsObj.set, JsObj.get, hk, ih]

theorem fanoutLoop_eq_map (l : List Nat) (args : List Nat) :
    fanoutLoop l args = l.map (fun f => (f, args)) := by
  induction l with
  | nil => rfl
  | cons f rest ih => simp [fanoutLoop, ih]

/-! ## Claim theorems -/

/-- C8: the fan-out closure built by buildHandlerInClosure invokes every
callback currently registered in the list under its key exactly once
each, in registration order (index 0 first), passing each invocation the
same arguments object; if the list is absent it invokes nothing (the
trace is the list itself, mapped to call records in order). -/
theorem fanout_invokes_in_order (context : JsObj (List Nat)) (key : String)
    (args : List Nat) :
    buildHandlerInClosure context key args =
      ((JsObj.get context key).getD []).map (fun f => (f, args)) := by
  unfold buildHandlerInClosure
  cases JsObj.get context key with
  | none => rfl
  | some l => simp [fanoutLoop_eq_map]

/-- C4: on a started adapter whose engine reports it is already in the
declared state being requested, go is a no-op: it returns the adapter
(this), fires no engine transition method, and leaves the adapter -- in
particular the engine and its current state -- unchanged, for every
engine behaviour (so the transition-forbidden predicate and the declared
transitions are irrelevant). -/
theorem go_noop_when_in_state (c : FSM) (to_ : String) (e : Engine)
    (himpl : c.impl = some e)
    (hdecl : (JsObj.get c.stateConfiguration to_).isSome = true)
    (his : e.beh.is e.state to_ = true) :
    FSM.go c to_ = { result := .ok RetVal.thisRef, fired := none, post := c } := by
  unfold FSM.go
  rw [himpl]
  simp [hdecl, his]

/-- C4 witness: on the concrete started adapter cW (engine in state n1),
go to n1 is a no-op. -/
theorem go_noop_when_in_state_witness :
    FSM.go cW "n1" = { result := .ok RetVal.thisRef, fired := none, post := cW } :=
  go_noop_when_in_state cW "n1" eW rfl rfl rfl

/-- C1 (code bug): offEnterState does not remove a registered handler
from the enter-state list: it assigns the filtered list to the key
onenterstate instead of onEnterState, so re-registering the same handler
afterwards still raises. Evaluated on a concrete started adapter. -/
theorem offEnterState_leaves_handler_registered :
    offOnRun = .error "Re-registering a hander!" := rfl

/-- C2 (code bug): for the transition a2b declared with onBefore
callback 1 and onAfter callback 2, start registers the onAfter callback
(2) -- not the onBefore callback (1) -- under the key onBeforeA2b
(source line 222). -/
theorem start_onBefore_gets_onAfter_callback :
    JsObj.get (implMethods beforeAfterRun) "onBeforeA2b" = some (MethodVal.cb 2) ∧
    JsObj.get (implMethods beforeAfterRun) "onAfterA2b" = some (MethodVal.cb 2) ∧
    JsObj.get (implMethods beforeAfterRun) "onBeforeA2b" ≠ some (MethodVal.cb 1) :=
  ⟨rfl, rfl, by decide⟩

/-- C9 (code bug): on the path where go actually executes a transition it
returns the global self object, not the adapter instance (source line
325 has return self with no local self binding). Evaluated on a concrete
started adapter going from n1 to n2. -/
theorem go_returns_global_self :
    twoStateGo.result = .ok RetVal.globalSelf ∧
    twoStateGo.fired = some (transitionKey "n1" "n2") ∧
    RetVal.globalSelf ≠ RetVal.thisRef :=
  ⟨rfl, rfl, by decide⟩

/-- C3: go raises exactly when the adapter is not started, or the target
is not a declared state, or the engine reports the target is not the
current state and its transition-forbidden predicate holds for the key
current2to; an erroring go never invokes an engine transition method
(the forbidden case is rejected before delegation), and on the
successful non-self path the engine's transition method for that key is
invoked. The hypothesis hsane states the external engine's guarantee
that every transition it does not forbid has a callable method. -/
theorem go_raises_iff (c : FSM) (to_ : String)
    (hsane : ∀ e t, c.impl = some e → e.beh.cannot e.state t = false →
      e.beh.hasMethod t = true) :
    (isErr (FSM.go c to_).result = true ↔
      (c.impl = none ∨ JsObj.get c.stateConfiguration to_ = none ∨
        ∃ e, c.impl = some e ∧ e.beh.is e.state to_ = false ∧
          e.beh.cannot e.state (transitionKey e.state to_) = true)) ∧
    (isErr (FSM.go c to_).result = true → (FSM.go c to_).fired = none) ∧
    (∀ e, c.impl = some e → (JsObj.get c.stateConfiguration to_).isSome = true →
      e.beh.is e.state to_ = false →
      e.beh.cannot e.state (transitionKey e.state to_) = false →
      (FSM.go c to_).fired = some (transitionKey e.state to_)) := by
  cases himpl : c.impl with
  | none =>
    have hgo : FSM.go c to_ =
        { result := .error "State machine has not yet started.",
          fired := none, post := c } := by
      unfold FSM.go; rw [himpl]
    rw [hgo]
    refine ⟨?_, fun _ => rfl, ?_⟩
    · simp [isErr]
    · intro e he _ _ _; cases he
  | some e =>
    cases hdecl : JsObj.get c.stateConfiguration to_ with
    | none =>
      have hgo : FSM.go c to_ =
          { result := .error ("Go to undefined state: " ++ to_),
            fired := none, post := c } := by
        unfold FSM.go; rw [himpl]; simp [hdecl]
      rw [hgo]
      refine ⟨?_, fun _ => rfl, ?_⟩
      · simp [isErr]
      · intro e' he' hds _ _; cases hds
    | some spec =>
      cases his : e.beh.is e.state to_ with
      | true =>
        have hgo : FSM.go c to_ =
            { result := .ok RetVal.thisRef, fired := none, post := c } := by
          unfold FSM.go; rw [himpl]; simp [hdecl, his]
        rw [hgo]
        refine ⟨?_, ?_, ?_⟩
        · simp only [isErr]
          constructor
          · intro habs; cases habs
          · rintro (h | h | ⟨e', he', his', hcan'⟩)
            · cases h
            · cases h
            · injection he' with h
              subst h
              rw [his] at his'
              cases his'
        · intro habs; cases habs
        · intro e' he' _ his' _
          injection he' with h
          subst h
          rw [his] at his'
          cases his'
      | false =>
        cases hcan : e.beh.cannot e.state (transitionKey e.state to_) with
        | true =>
          have hgo : FSM.go c to_ =
              { result := .error ("Transition is not allowed: " ++
                  e.state ++ " -> " ++ to_),
                fired := none, post := c } := by
            unfold FSM.go; rw [himpl]; simp [hdecl, his, hcan]
          rw [hgo]
          refine ⟨?_, fun _ => rfl, ?_⟩
          · exact iff_of_true (by simp [isErr]) (Or.inr (Or.inr ⟨e, rfl, his, hcan⟩))
          · intro e' he' _ _ hcan'
            injection he' with h
            subst h
            rw [hcan] at hcan'
            cases hcan'
        | false =>
          have hm : e.beh.hasMethod (transitionKey e.state to_) = true :=
            hsane e (transitionKey e.state to_) himpl hcan
          have hgo : FSM.go c to_ =
              { result := .ok RetVal.globalSelf,
                fired := some (transitionKey e.state to_),
                post := { c with impl := (some { e with state := (e.beh.fireTo e.state (transitionKey e.state to_)) }) } } := by
            unfold FSM.go; rw [himpl]; simp [hdecl, his, hcan, hm]
          rw [hgo]
          refine ⟨?_, ?_, ?_⟩
          · simp only [isErr]
            constructor
            · intro habs; cases habs
            · rintro (h | h | ⟨e', he', his', hcan'⟩)
              · cases h
              · cases h
              · injection he' with h
                subst h
                rw [hcan] at hcan'
                cases hcan'
          · intro habs; cases habs
          · intro e' he' _ _ _
            injection he' with h
            subst h
            rfl

/-- C3 witness: on the concrete started adapter cW (engine in state n1,
nothing forbidden), go to the declared state n2 fires the engine's
transition method n12n2. -/
theorem go_raises_iff_witness :
    (FSM.go cW "n2").fired = some (transitionKey "n1" "n2") :=
  (go_raises_iff cW "n2"
    (fun e t he _ => by cases he; rfl)).2.2 eW rfl rfl rfl rfl

end PolpFSM

namespace PolpFSM

/-! ## Stage-guard helper lemmas -/

theorem ensureConfigure_err {c : FSM} (h : c.impl.isSome = true) :
    c.ensureConfigureStage = .error "State machine has started." := by
  unfold FSM.ensureConfigureStage
  rw [if_pos h]

theorem ensureConfigure_ok {c : FSM} (h : c.impl = none) :
    c.ensureConfigureStage = .ok () := by
  unfold FSM.ensureConfigureStage
  rw [if_neg]
  rw [h]
  simp

theorem addState_errs_of_started {c : FSM} {n : String} {e l : Option Nat}
    (h : c.impl.isSome = true) :
    isErr (FSM.addState c n e l) = true := by
  unfold FSM.addState
  rw [ensureConfigure_err h]
  rfl

theorem start_errs_of_started {beh : EngineBehavior} {c : FSM}
    (h : c.impl.isSome = true) :
    isErr (FSM.start beh c) = true := by
  unfold FSM.start
  rw [ensureConfigure_err h]
  rfl

theorem addState_errs_of_declared {c : FSM} {n : String} {e l : Option Nat}
    (h0 : c.impl = none) (h : (JsObj.get c.stateConfiguration n).isSome = true) :
    isErr (FSM.addState c n e l) = true := by
  unfold FSM.addState
  rw [ensureConfigure_ok h0]
  simp only []
  rw [if_pos h]
  rfl

theorem start_ok_impl_isSome {beh : EngineBehavior} {c c' : FSM}
    (h : FSM.start beh c = .ok c') : c'.impl.isSome = true := by
  unfold FSM.start at h
  cases himpl : c.impl with
  | some e =>
    rw [ensureConfigure_err (by rw [himpl]; rfl)] at h
    cases h
  | none =>
    rw [ensureConfigure_ok himpl] at h
    simp only [] at h
    split at h
    · cases h
    · injection h with h2
      subst h2
      rfl

/-- C5 counterexample: setInitState of the empty string succeeds on a
fresh adapter, after which the adapter has not started and an init state
has been set, yet start raises (the source tests the init state for
JavaScript truthiness, and the empty string is falsy). -/
theorem start_raises_on_empty_init_cex :
    FSM.setInitState FSM.new "" = .ok fsmEmptyInit ∧
    fsmEmptyInit.impl = none ∧ fsmEmptyInit.initState = some "" ∧
    FSM.start behW fsmEmptyInit = .error "Init state has not been defined." :=
  ⟨rfl, rfl, rfl, rfl⟩

/-- C5 (amended): start raises exactly when the adapter has already
started, or no init state has been set, or the init state was set to the
empty string (which the code's truthiness test treats as unset);
otherwise it instantiates the engine with the declared init state, the
transition list and named-method map built from the collected specs, and
the user or default error handler, and the adapter is running
thereafter, so a second start raises. -/
theorem start_spec (beh : EngineBehavior) (c : FSM) :
    (isErr (FSM.start beh c) = true ↔
      (c.impl.isSome = true ∨ c.initState = none ∨ c.initState = some "")) ∧
    (∀ c', FSM.start beh c = .ok c' →
      ∃ s, c.initState = some s ∧
        c'.impl = some { config := { init := s, transitions := (startLoop1 c.transitionConfiguration).1, methods := startMethods c, onInvalidTransition := errHandlerOf c.errorHandler }, beh := beh, state := s } ∧
        isErr (FSM.start beh c') = true) := by
  cases himpl : c.impl with
  | some e =>
    have h1 : FSM.start beh c = .error "State machine has started." := by
      unfold FSM.start
      rw [ensureConfigure_err (by rw [himpl]; rfl)]
    rw [h1]
    refine ⟨iff_of_true rfl (Or.inl rfl), ?_⟩
    intro c' hok
    cases hok
  | none =>
    have hcfg := ensureConfigure_ok himpl
    cases hinit : c.initState with
    | none =>
      have h1 : FSM.start beh c = .error "Init state has not been defined." := by
        unfold FSM.start
        rw [hcfg]
        simp only []
        rw [hinit]
        rfl
      rw [h1]
      refine ⟨iff_of_true rfl (Or.inr (Or.inl rfl)), ?_⟩
      intro c' hok
      cases hok
    | some s =>
      by_cases hs : s = ""
      · subst hs
        have h1 : FSM.start beh c = .error "Init state has not been defined." := by
          unfold FSM.start
          rw [hcfg]
          simp only []
          rw [hinit]
          rfl
        rw [h1]
        refine ⟨iff_of_true rfl (Or.inr (Or.inr rfl)), ?_⟩
        intro c' hok
        cases hok
      · have h1 : FSM.start beh c = .ok
            { c with
              handlers := (JsObj.set (JsObj.set c.handlers "onEnterState" [])
                            "onLeaveState" []),
              impl := some { config := { init := s, transitions := (startLoop1 c.transitionConfiguration).1, methods := startMethods c, onInvalidTransition := errHandlerOf c.errorHandler }, beh := beh, state := s } } := by
          unfold FSM.start
          rw [hcfg]
          simp only []
          rw [hinit]
          simp [strTruthy, hs]
        rw [h1]
        constructor
        · apply iff_of_false
          · simp [isErr]
          · rintro (h | h | h)
            · cases h
            · cases h
            · injection h with h2
              exact hs h2
        · intro c' hok
          injection hok with h2
          subst h2
          exact ⟨s, rfl, rfl, start_errs_of_started rfl⟩

/-- C5 witness: start on a fresh adapter (no init state set) raises. -/
theorem start_spec_witness : isErr (FSM.start behW FSM.new) = true :=
  (start_spec behW FSM.new).1.mpr (Or.inr (Or.inl rfl))

/-- C6: addState raises exactly when the adapter has already started or a
state with that name was already declared; on success it records the
state spec under that name, so adding the same name again raises, and
any addState after a successful start raises. -/
theorem addState_spec (c : FSM) (name : String) (e l : Option Nat) :
    (isErr (FSM.addState c name e l) = true ↔
      (c.impl.isSome = true ∨ (JsObj.get c.stateConfiguration name).isSome = true)) ∧
    (∀ c', FSM.addState c name e l = .ok c' →
      JsObj.get c'.stateConfiguration name =
        some { onEnterCallback := e, onLeaveCallback := l } ∧
      isErr (FSM.addState c' name e l) = true) ∧
    (∀ beh c', FSM.start beh c = .ok c' →
      isErr (FSM.addState c' name e l) = true) := by
  cases himpl : c.impl with
  | some en =>
    have h1 : FSM.addState c name e l = .error "State machine has started." := by
      unfold FSM.addState
      rw [ensureConfigure_err (by rw [himpl]; rfl)]
    rw [h1]
    refine ⟨iff_of_true rfl (Or.inl rfl), ?_, ?_⟩
    · intro c' hok
      cases hok
    · intro beh c' hok
      exact addState_errs_of_started (start_ok_impl_isSome hok)
  | none =>
    have hcfg := ensureConfigure_ok himpl
    cases hdecl : JsObj.get c.stateConfiguration name with
    | some sp =>
      have h1 : FSM.addState c name e l = .error ("Redefined state: " ++ name) := by
        unfold FSM.addState
        rw [hcfg]
        simp only []
        rw [hdecl]
        rfl
      rw [h1]
      refine ⟨iff_of_true rfl (Or.inr rfl), ?_, ?_⟩
      · intro c' hok
        cases hok
      · intro beh c' hok
        exact addState_errs_of_started (start_ok_impl_isSome hok)
    | none =>
      have h1 : FSM.addState c name e l = .ok
          { c with stateConfiguration :=
              (JsObj.set c.stateConfiguration name
                { onEnterCallback := e, onLeaveCallback := l }) } := by
        unfold FSM.addState
        rw [hcfg]
        simp only []
        rw [hdecl]
        rfl
      rw [h1]
      refine ⟨?_, ?_, ?_⟩
      · apply iff_of_false
        · simp [isErr]
        · rintro (h | h)
          · cases h
          · cases h
      · intro c' hok
        injection hok with h2
        subst h2
        constructor
        · exact JsObj.get_set_self c.stateConfiguration name _
        · exact addState_errs_of_declared himpl (by rw [JsObj.get_set_self]; rfl)
      · intro beh c' hok
        exact addState_errs_of_started (start_ok_impl_isSome hok)

/-- C6 witness: after addState of n1 on a fresh adapter, the spec is
recorded under n1 and a second addState of n1 raises. -/
theorem addState_spec_witness :
    JsObj.get cA.stateConfiguration "n1" =
      some { onEnterCallback := none, onLeaveCallback := none } ∧
    isErr (FSM.addState cA "n1" none none) = true :=
  (addState_spec FSM.new "n1" none none).2.1 cA rfl

/-- C10: the init state is never validated against the declared states:
for any name not previously declared, setInitState succeeds on a
not-started adapter with no init state set, and a subsequent start
raises no undefined-reference error for the init state at the adapter
level (it succeeds for every nonempty name, and for the empty name it
raises only the missing-init-state error). -/
theorem setInitState_unvalidated (c : FSM) (name : String)
    (h0 : c.impl = none) (h1 : c.initState = none)
    (h2 : JsObj.get c.stateConfiguration name = none) :
    FSM.setInitState c name = .ok { c with initState := some name } ∧
    (name ≠ "" → ∀ beh, isErr (FSM.start beh { c with initState := some name }) = false) ∧
    (name = "" → ∀ beh, FSM.start beh { c with initState := some name } =
      .error "Init state has not been defined.") := by
  refine ⟨?_, ?_, ?_⟩
  · unfold FSM.setInitState
    rw [ensureConfigure_ok h0]
    simp only []
    rw [h1]
    rfl
  · intro hne beh
    unfold FSM.start
    rw [ensureConfigure_ok (show ({ c with initState := some name } : FSM).impl = none from h0)]
    simp [strTruthy, hne, isErr]
  · intro heq beh
    subst heq
    unfold FSM.start
    rw [ensureConfigure_ok (show ({ c with initState := some "" } : FSM).impl = none from h0)]
    rfl

/-- C10 witness: setInitState of the undeclared name ghost succeeds on a
fresh adapter and the subsequent start does not raise. -/
theorem setInitState_unvalidated_witness :
    FSM.setInitState FSM.new "ghost" = .ok { FSM.new with initState := some "ghost" } ∧
    isErr (FSM.start behW { FSM.new with initState := some "ghost" }) = false :=
  ⟨(setInitState_unvalidated FSM.new "ghost" rfl rfl rfl).1,
   (setInitState_unvalidated FSM.new "ghost" rfl rfl rfl).2.1 (by decide) behW⟩

/-! ## Field-preservation lemmas for the configuration methods -/

theorem addState_ok_fields {c c' : FSM} {n : String} {e l : Option Nat}
    (h : FSM.addState c n e l = .ok c') :
    c.impl = none ∧ c'.impl = c.impl ∧ c'.handlers = c.handlers := by
  unfold FSM.addState at h
  cases himpl : c.impl with
  | some en =>
    rw [ensureConfigure_err (by rw [himpl]; rfl)] at h
    cases h
  | none =>
    rw [ensureConfigure_ok himpl] at h
    simp only [] at h
    split at h
    · cases h
    · injection h with h2
      subst h2
      exact ⟨rfl, himpl, rfl⟩

theorem setInitState_ok_fields {c c' : FSM} {n : String}
    (h : FSM.setInitState c n = .ok c') :
    c.impl = none ∧ c'.impl = c.impl ∧ c'.handlers = c.handlers := by
  unfold FSM.setInitState at h
  cases himpl : c.impl with
  | some en =>
    rw [ensureConfigure_err (by rw [himpl]; rfl)] at h
    cases h
  | none =>
    rw [ensureConfigure_ok himpl] at h
    simp only [] at h
    split at h
    · cases h
    · injection h with h2
      subst h2
      exact ⟨rfl, himpl, rfl⟩

theorem addTransition_ok_fields {c c' : FSM} {f t : String} {a b : Option Nat}
    (h : FSM.addTransition c f t a b = .ok c') :
    c.impl = none ∧ c'.impl = c.impl ∧ c'.handlers = c.handlers := by
  unfold FSM.addTransition at h
  cases himpl : c.impl with
  | some en =>
    rw [ensureConfigure_err (by rw [himpl]; rfl)] at h
    cases h
  | none =>
    rw [ensureConfigure_ok himpl] at h
    simp only [] at h
    split at h
    · cases h
    · split at h
      · cases h
      · split at h
        · cases h
        · injection h with h2
          subst h2
          exact ⟨rfl, himpl, rfl⟩

theorem addErrorHandler_ok_fields {c c' : FSM} {f : Nat}
    (h : FSM.addErrorHandler c f = .ok c') :
    c.impl = none ∧ c'.impl = c.impl ∧ c'.handlers = c.handlers := by
  unfold FSM.addErrorHandler at h
  cases himpl : c.impl with
  | some en =>
    rw [ensureConfigure_err (by rw [himpl]; rfl)] at h
    cases h
  | none =>
    rw [ensureConfigure_ok himpl] at h
    simp only [] at h
    injection h with h2
    subst h2
    exact ⟨rfl, himpl, rfl⟩

/-- On every reachable adapter that has not started, the handler lists do
not exist yet: the keys onEnterState and onLeaveState are absent from
the handlers dictionary (_handlers starts empty and these keys are only
created by start; offEnterState and offExitState write only the unread
lower-case keys). -/
theorem reachable_handlers_none {c : FSM} (hr : Reachable c) :
    c.impl = none →
      JsObj.get c.handlers "onEnterState" = none ∧
      JsObj.get c.handlers "onLeaveState" = none := by
  induction hr with
  | new => exact fun _ => ⟨rfl, rfl⟩
  | @addState c0 c1 n e l hr hst ih =>
    obtain ⟨h0, hi, hh⟩ := addState_ok_fields hst
    rw [hi, hh]
    exact fun _ => ih h0
  | @setInitState c0 c1 n hr hst ih =>
    obtain ⟨h0, hi, hh⟩ := setInitState_ok_fields hst
    rw [hi, hh]
    exact fun _ => ih h0
  | @addTransition c0 c1 f t a b hr hst ih =>
    obtain ⟨h0, hi, hh⟩ := addTransition_ok_fields hst
    rw [hi, hh]
    exact fun _ => ih h0
  | @addErrorHandler c0 c1 f hr hst ih =>
    obtain ⟨h0, hi, hh⟩ := addErrorHandler_ok_fields hst
    rw [hi, hh]
    exact fun _ => ih h0
  | @start c0 c1 beh hr hst ih =>
    intro h0
    have hsome := start_ok_impl_isSome hst
    rw [h0] at hsome
    cases hsome
  | @onEnterState c0 c1 hdl hr hst ih =>
    unfold FSM.onEnterState at hst
    cases hm : JsObj.get c0.handlers "onEnterState" with
    | none =>
      rw [hm] at hst
      cases hst
    | some lst =>
      rw [hm] at hst
      simp only [] at hst
      split at hst
      · cases hst
      · injection hst with h2
        subst h2
        intro h0
        rw [(ih h0).1] at hm
        cases hm
  | @onExitState c0 c1 hdl hr hst ih =>
    unfold FSM.onExitState at hst
    cases hm : JsObj.get c0.handlers "onLeaveState" with
    | none =>
      rw [hm] at hst
      cases hst
    | some lst =>
      rw [hm] at hst
      simp only [] at hst
      split at hst
      · cases hst
      · injection hst with h2
        subst h2
        intro h0
        rw [(ih h0).2] at hm
        cases hm
  | @offEnterState c0 c1 hdl hr hst ih =>
    unfold FSM.offEnterState at hst
    injection hst with h2
    subst h2
    intro h0
    rw [JsObj.get_set_ne _ _ _ _ (by decide), JsObj.get_set_ne _ _ _ _ (by decide)]
    exact ih h0
  | @offExitState c0 c1 hdl hr hst ih =>
    unfold FSM.offExitState at hst
    injection hst with h2
    subst h2
    intro h0
    rw [JsObj.get_set_ne _ _ _ _ (by decide), JsObj.get_set_ne _ _ _ _ (by decide)]
    exact ih h0
  | @go c0 t0 hr ih =>
    intro h0
    cases himpl : c0.impl with
    | none =>
      have hgo : FSM.go c0 t0 =
          { result := .error "State machine has not yet started.",
            fired := none, post := c0 } := by
        unfold FSM.go
        rw [himpl]
      rw [hgo] at h0 ⊢
      exact ih h0
    | some e =>
      exfalso
      have hsome : (FSM.go c0 t0).post.impl.isSome = true := by
        unfold FSM.go
        rw [himpl]
        simp only []
        repeat' split
        all_goals simp [himpl]
      rw [h0] at hsome
      cases hsome

/-- C7: on every reachable adapter on which start has not been called,
registering an enter-state or exit-state handler raises synchronously:
the handler lists only come into existence at start, so the push onto
the missing list raises (a TypeError from the runtime). -/
theorem handler_registration_before_start_raises (c : FSM) (h : Nat)
    (hr : Reachable c) (h0 : c.impl = none) :
    FSM.onEnterState c h = .error typeErrorPush ∧
    FSM.onExitState c h = .error typeErrorPush := by
  obtain ⟨h1, h2⟩ := reachable_handlers_none hr h0
  constructor
  · unfold FSM.onEnterState
    rw [h1]
  · unfold FSM.onExitState
    rw [h2]

/-- C7 witness: on a freshly constructed adapter both registrations
raise. -/
theorem handler_registration_before_start_raises_witness :
    FSM.onEnterState FSM.new 0 = .error typeErrorPush ∧
    FSM.onExitState FSM.new 0 = .error typeErrorPush :=
  handler_registration_before_start_raises FSM.new 0 Reachable.new rfl

end PolpFSM
